import Mathlib

/-!
Shallow embedding of the command-translation layer of a Terraform provider
for Minecraft servers, together with proofs about its reconcilers.

The embedding follows the Go sources:
* `internal/minecraft/client.go` — command formatting, the game-rule
  registries and reply parsing;
* the provider resource files — bed, chest, gamerule and gamemode
  reconcilers (Create/Delete lifecycle operations).

Strings are modelled by Lean `String`/`List Char`; the Go standard-library
helpers used by the sources (`strings.TrimSpace`, `strings.Fields`,
`strings.ToLower`, `strings.Split`, `strconv.Atoi`) are re-implemented on
character lists.  The RCON transport is an oracle mapping a command string
to either a reply or an error; every operation returns the ordered list of
commands it issued so that sequencing claims can be stated.
-/

/-- Whitespace test used by the Go `strings` helpers (ASCII subset). -/
def isWS (c : Char) : Bool := c.isWhitespace

/-- Model of `strings.TrimSpace` on character lists: drop leading and
trailing whitespace. -/
def goTrimList (l : List Char) : List Char :=
  ((l.dropWhile isWS).reverse.dropWhile isWS).reverse

/-- Model of `strings.TrimSpace` on strings. -/
def goTrim (s : String) : String := String.mk (goTrimList s.data)

/-- ASCII lowercasing of a character list, modelling `strings.ToLower`. -/
def asciiLower (l : List Char) : List Char := l.map Char.toLower

/-- Model of `strings.ToLower` on strings. -/
def goToLower (s : String) : String := String.mk (asciiLower s.data)

/-- Accumulator loop behind the model of `strings.Fields`; `acc` holds the
reversed characters of the run in progress. -/
def fieldsAux : List Char → List Char → List (List Char)
  | [], acc => if acc.isEmpty then [] else [acc.reverse]
  | c :: cs, acc =>
    if isWS c then
      if acc.isEmpty then fieldsAux cs [] else acc.reverse :: fieldsAux cs []
    else fieldsAux cs (c :: acc)

/-- Model of `strings.Fields`: the maximal runs of non-whitespace
characters, in order. -/
def fieldsList (l : List Char) : List (List Char) := fieldsAux l []

/-- Numeric value of a digit list (base 10). -/
def digitsToNat (l : List Char) : Nat :=
  l.foldl (fun a c => a * 10 + (c.toNat - 48)) 0

/-- Sign handling of `strconv.Atoi`: strip one leading `+` or `-`,
remembering whether the value is negated. -/
def goAtoiSign : List Char → Bool × List Char
  | '+' :: rest => (false, rest)
  | '-' :: rest => (true, rest)
  | l => (false, l)

/-- Model of `strconv.Atoi`: an optional sign followed by at least one
base-10 digit, within the 64-bit signed integer range. -/
def goAtoiL (l : List Char) : Option Int :=
  let sd := goAtoiSign l
  let ds := sd.2
  if ds = [] then none
  else if ds.all Char.isDigit then
    let v : Int := if sd.1 then - (digitsToNat ds : Int) else (digitsToNat ds : Int)
    if v < - (2 ^ 63) ∨ (2 ^ 63 - 1) < v then none else some v
  else none

/-- Go boolean rendering (`%t`). -/
def boolStr (b : Bool) : String := if b then "true" else "false"

/-- Commands the client can send, in structured form.  `render` below
produces the exact command text of `client.go`. -/
inductive Cmd where
  | setblock (material : String) (x y z : Int)
  | gamerule (rule : String) (value : Option String)
  | gamemodeSet (mode player : String)
  | defaultgamemodeSet (mode : String)
  | dataGetEntity (name : String)
  | dataGetStorage
deriving DecidableEq, Repr

/-- Exact command text sent over RCON for each structured command,
matching the `fmt.Sprintf` calls in `client.go`. -/
def render : Cmd → String
  | .setblock material x y z =>
      "setblock " ++ toString x ++ " " ++ toString y ++ " " ++ toString z
        ++ " " ++ material ++ " replace"
  | .gamerule rule none => "gamerule " ++ rule
  | .gamerule rule (some v) => "gamerule " ++ rule ++ " " ++ v
  | .gamemodeSet mode player => "gamemode " ++ mode ++ " " ++ player
  | .defaultgamemodeSet mode => "defaultgamemode " ++ mode
  | .dataGetEntity name => "/data get entity " ++ name ++ " playerGameType"
  | .dataGetStorage => "/data get storage minecraft:server worldDefaultGameMode"

deriving instance DecidableEq for Except

/-- The RCON transport: one command string in, one reply or error out. -/
structure Transport where
  send : String → Except String String

/-- Errors produced by the client layer; each constructor corresponds to
one `fmt.Errorf` in `client.go`. -/
inductive ClientErr where
  | transport (e : String)
  | unknownBoolRule (rule : String)
  | unknownIntRule (rule : String)
  | noKnownDefault (rule : String)
  | sendCommand (e : String)
  | unexpectedResponse (out : String)
  | parseIntErr (s : String)
  | unknownGameModeId (id : Int)
deriving DecidableEq, Repr

/-- Boolean game-rule registry (`boolRules` in `client.go`). -/
def boolRules : List String :=
  ["announceAdvancements", "disableElytraMovementCheck",
   "disablePlayerMovementCheck", "disableRaids", "doDaylightCycle",
   "doEntityDrops", "doFireTick", "doInsomnia", "doImmediateRespawn",
   "doLimitedCrafting", "doMobLoot", "doMobSpawning", "doPatrolSpawning",
   "doTileDrops", "doTraderSpawning", "doVinesSpread", "doWeatherCycle",
   "doWardenSpawning", "drowningDamage", "fallDamage", "fireDamage",
   "forgiveDeadPlayers", "keepInventory", "logAdminCommands", "mobGriefing",
   "naturalRegeneration", "reducedDebugInfo", "sendCommandFeedback",
   "showDeathMessages", "spectatorsGenerateChunks", "universalAnger"]

/-- Integer game-rule registry (`intRules` in `client.go`). -/
def intRules : List String :=
  ["maxCommandChainLength", "maxEntityCramming", "playersSleepingPercentage",
   "randomTickSpeed", "spawnRadius"]

/-- Vanilla defaults for the boolean rules (`defaultBoolRules`). -/
def defaultBoolRules : List (String × Bool) :=
  [("announceAdvancements", true), ("disableElytraMovementCheck", false),
   ("disablePlayerMovementCheck", false), ("disableRaids", false),
   ("doDaylightCycle", true), ("doEntityDrops", true), ("doFireTick", true),
   ("doInsomnia", true), ("doImmediateRespawn", false),
   ("doLimitedCrafting", false), ("doMobLoot", true), ("doMobSpawning", true),
   ("doPatrolSpawning", true), ("doTileDrops", true),
   ("doTraderSpawning", true), ("doVinesSpread", true),
   ("doWeatherCycle", true), ("doWardenSpawning", true),
   ("drowningDamage", true), ("fallDamage", true), ("fireDamage", true),
   ("forgiveDeadPlayers", true), ("keepInventory", false),
   ("logAdminCommands", true), ("mobGriefing", true),
   ("naturalRegeneration", true), ("reducedDebugInfo", false),
   ("sendCommandFeedback", true), ("showDeathMessages", true),
   ("spectatorsGenerateChunks", true), ("universalAnger", false)]

/-- Vanilla defaults for the integer rules (`defaultIntRules`). -/
def defaultIntRules : List (String × Int) :=
  [("maxCommandChainLength", 65536), ("maxEntityCramming", 24),
   ("playersSleepingPercentage", 100), ("randomTickSpeed", 3),
   ("spawnRadius", 5)]

/-- Association-list lookup keyed by strings, modelling a Go map read. -/
def lookupStr {β : Type} (l : List (String × β)) (k : String) : Option β :=
  match l with
  | [] => none
  | (a, b) :: rest => if k = a then some b else lookupStr rest k

/-- Membership test against the boolean registry (`isBoolRule`). -/
def isBoolRule (rule : String) : Bool := boolRules.contains rule

/-- Membership test against the integer registry (`isIntRule`). -/
def isIntRule (rule : String) : Bool := intRules.contains rule

/-- Model of `Client.CreateBlock`: send one `setblock ... replace`
command; return the issued command and the error, if any. -/
def CreateBlock (tr : Transport) (material : String) (x y z : Int) :
    List Cmd × Option ClientErr :=
  let c := Cmd.setblock material x y z
  match tr.send (render c) with
  | .ok _ => ([c], none)
  | .error e => ([c], some (.transport e))

/-- Model of `Client.DeleteBlock`: place `minecraft:air` at the target. -/
def DeleteBlock (tr : Transport) (x y z : Int) :
    List Cmd × Option ClientErr :=
  let c := Cmd.setblock "minecraft:air" x y z
  match tr.send (render c) with
  | .ok _ => ([c], none)
  | .error e => ([c], some (.transport e))

/-- Model of `Client.SetGameRuleBool`: reject names outside the boolean
registry before any command is sent. -/
def SetGameRuleBool (tr : Transport) (rule : String) (value : Bool) :
    List Cmd × Option ClientErr :=
  let rule := goTrim rule
  if ¬ isBoolRule rule then ([], some (.unknownBoolRule rule))
  else
    let c := Cmd.gamerule rule (some (boolStr value))
    match tr.send (render c) with
    | .ok _ => ([c], none)
    | .error e => ([c], some (.transport e))

/-- Model of `Client.SetGameRuleInt`: reject names outside the integer
registry before any command is sent. -/
def SetGameRuleInt (tr : Transport) (rule : String) (value : Int) :
    List Cmd × Option ClientErr :=
  let rule := goTrim rule
  if ¬ isIntRule rule then ([], some (.unknownIntRule rule))
  else
    let c := Cmd.gamerule rule (some (toString value))
    match tr.send (render c) with
    | .ok _ => ([c], none)
    | .error e => ([c], some (.transport e))

/-- Token classifier used by the reply heuristic of `Client.GetGameRule`:
a trimmed field is accepted if it lowercases to `true`/`false` (returning
the lowercase form) or parses as a base-10 integer (returned verbatim). -/
def scanTok (f : List Char) : Option (List Char) :=
  let f := goTrimList f
  let lf := asciiLower f
  if lf = "true".data ∨ lf = "false".data then some lf
  else if (goAtoiL f).isSome then some f
  else none

/-- Scan fields from the end of the reply for the first acceptable token,
as the descending loop in `Client.GetGameRule` does. -/
def scanRev : List (List Char) → Option (List Char)
  | [] => none
  | f :: rest =>
    match scanRev rest with
    | some t => some t
    | none => scanTok f

/-- Reply-parsing heuristic of `Client.GetGameRule` on character lists:
trim, return a lone field as-is, otherwise scan from the end for a
boolean or integer token, falling back to the whole trimmed line. -/
def readRuleParseL (out : List Char) : List Char :=
  let line := goTrimList out
  let fields := fieldsList line
  match fields with
  | [f] => f
  | _ =>
    match scanRev fields with
    | some t => t
    | none => line

/-- Reply-parsing heuristic of `Client.GetGameRule` on strings. -/
def readRuleReply (out : String) : String := String.mk (readRuleParseL out.data)

/-- Model of `Client.GetGameRule`: send the query form and run the reply
heuristic on a successful reply. -/
def GetGameRule (tr : Transport) (rule : String) :
    List Cmd × Except ClientErr String :=
  let rule := goTrim rule
  let c := Cmd.gamerule rule none
  match tr.send (render c) with
  | .error e => ([c], .error (.transport e))
  | .ok out => ([c], .ok (readRuleReply out))

/-- Model of `Client.ResetGameRuleToDefault`: look the rule up in the
boolean defaults, then the integer defaults, and set the found value;
fail without sending anything when neither map knows the rule. -/
def ResetGameRuleToDefault (tr : Transport) (rule : String) :
    List Cmd × Option ClientErr :=
  let rule := goTrim rule
  match lookupStr defaultBoolRules rule with
  | some dflt => SetGameRuleBool tr rule dflt
  | none =>
    match lookupStr defaultIntRules rule with
    | some dflt => SetGameRuleInt tr rule dflt
    | none => ([], some (.noKnownDefault rule))

/-- Closed table mapping Minecraft's numeric game-mode ids to names
(`gameModeNames` in `client.go`). -/
def gameModeNames (id : Int) : Option String :=
  if id = 0 then some "survival"
  else if id = 1 then some "creative"
  else if id = 2 then some "adventure"
  else if id = 3 then some "spectator"
  else none

/-- Reply handling of `Client.GetUserGameMode`: take the text after the
last colon, trim it, parse it as an id and map it through the closed
id-to-name table. -/
def parseGameModeReply (out : String) : Except ClientErr String :=
  let parts := out.data.splitOn ':'
  if parts.length < 2 then .error (.unexpectedResponse out)
  else
    let numStr := goTrimList (parts.getLastD [])
    match goAtoiL numStr with
    | none => .error (.parseIntErr (String.mk numStr))
    | some id =>
      match gameModeNames id with
      | none => .error (.unknownGameModeId id)
      | some n => .ok n

/-- Model of `Client.GetUserGameMode`: query the player's
`playerGameType` and parse the reply. -/
def GetUserGameMode (tr : Transport) (name : String) :
    List Cmd × Except ClientErr String :=
  let c := Cmd.dataGetEntity name
  match tr.send (render c) with
  | .error e => ([c], .error (.sendCommand e))
  | .ok out => ([c], parseGameModeReply out)

/-- Reply handling of `Client.GetDefaultGameMode`: as for the player
query, but the trimmed text after the last colon is additionally
stripped of trailing closing braces before parsing. -/
def parseDefaultGameModeReply (out : String) : Except ClientErr String :=
  let parts := out.data.splitOn ':'
  if parts.length < 2 then .error (.unexpectedResponse out)
  else
    let numStr :=
      ((goTrimList (parts.getLastD [])).reverse.dropWhile
        (fun c => c = '\x7d')).reverse
    match goAtoiL numStr with
    | none => .error (.parseIntErr (String.mk numStr))
    | some id =>
      match gameModeNames id with
      | none => .error (.unknownGameModeId id)
      | some n => .ok n

/-- Model of `Client.GetDefaultGameMode`: query the stored world default
mode and parse the reply. -/
def GetDefaultGameMode (tr : Transport) :
    List Cmd × Except ClientErr String :=
  let c := Cmd.dataGetStorage
  match tr.send (render c) with
  | .error e => ([c], .error (.sendCommand e))
  | .ok out => ([c], parseDefaultGameModeReply out)

/-- Model of `Client.SetUserGameMode`. -/
def SetUserGameMode (tr : Transport) (gamemode name : String) :
    List Cmd × Option ClientErr :=
  let c := Cmd.gamemodeSet gamemode name
  match tr.send (render c) with
  | .ok _ => ([c], none)
  | .error e => ([c], some (.transport e))

/-- Model of `Client.SetDefaultGameMode`. -/
def SetDefaultGameMode (tr : Transport) (gamemode : String) :
    List Cmd × Option ClientErr :=
  let c := Cmd.defaultgamemodeSet gamemode
  match tr.send (render c) with
  | .ok _ => ([c], none)
  | .error e => ([c], some (.transport e))

/-- Quote escaping used by `selectorByCustomName`: replace every `"` with
a backslash-quote pair (`strings.ReplaceAll(name, quote, backslash-quote)`). -/
def goReplaceQuote : List Char → List Char
  | [] => []
  | c :: cs =>
    if c = '"' then '\\' :: '"' :: goReplaceQuote cs
    else c :: goReplaceQuote cs

/-- Model of `selectorByCustomName`: a selector matching entities whose
display-name text component equals the (quote-escaped) name exactly. -/
def selectorByCustomName (name : String) : String :=
  "@e[nbt=\x7bCustomName:\x27\x7b\"text\":\""
    ++ String.mk (goReplaceQuote name.data) ++ "\"\x7d\x27\x7d]"

/-!
Provider layer: the reconcilers the claims are about, modelled as pure
functions from a transport and the declared data to an operation outcome.
Framework plumbing (schema wiring, state marshalling, `GetClient`) is
outside the scope of the claims and is not modelled; diagnostics are kept
as structured values so that "error" and "warning" outcomes stay distinct.
-/

/-- A diagnostic appended to the response: a client-error, a validation
error, or a non-fatal warning.  `error` and `validation` both correspond
to `AddError` call sites (operation failures); `warning` to `AddWarning`. -/
inductive Diag where
  | error (summary : String) (err : ClientErr)
  | validation (msg : String)
  | warning (summary : String) (err : ClientErr)
deriving DecidableEq, Repr

/-- True for the diagnostics produced by `AddError` (operation errors). -/
def Diag.isError : Diag → Bool
  | .error _ _ => true
  | .validation _ => true
  | .warning _ _ => false

/-- Outcome of one lifecycle operation: the ordered commands issued, the
diagnostics appended, and the state stored on success (`none` when the
operation aborted with an error). -/
structure OpOutcome (σ : Type) where
  trace : List Cmd
  diags : List Diag
  state : Option σ
deriving DecidableEq, Repr

/-- Declared attributes of a bed resource (`bedResourceData`). -/
structure BedData where
  material : String
  x : Int
  y : Int
  z : Int
  direction : String
  occupied : Option Bool
deriving DecidableEq, Repr

/-- Head offset for a bed facing (`bedOffset`): `none` models the
`valid=false` return for an unrecognized direction. -/
def bedOffset (facing : String) : Option (Int × Int) :=
  if facing = "north" then some (0, -1)
  else if facing = "south" then some (0, 1)
  else if facing = "east" then some (1, 0)
  else if facing = "west" then some (-1, 0)
  else none

/-- Block-state string for one bed part, as formatted in
`bedResource.Create`. -/
def bedMat (d : BedData) (part : String) : String :=
  d.material ++ "[facing=" ++ d.direction ++ ",part=" ++ part
    ++ ",occupied=" ++ boolStr (d.occupied.getD false) ++ "]"

/-- Identity stored for a bed (`bed-x-y-z-direction`). -/
def bedId (d : BedData) : String :=
  "bed-" ++ toString d.x ++ "-" ++ toString d.y ++ "-" ++ toString d.z
    ++ "-" ++ d.direction

/-- Model of `bedResource.Create`: place the foot, then the head one
block in the facing direction; on head failure, roll the foot back
(ignoring the rollback outcome) and report the head failure. -/
def bedCreate (tr : Transport) (d : BedData) : OpOutcome String :=
  match bedOffset d.direction with
  | none => ⟨[], [.validation "direction must be one of north|south|east|west"], none⟩
  | some (dx, dz) =>
    match CreateBlock tr (bedMat d "foot") d.x d.y d.z with
    | (t1, some e) => ⟨t1, [.error "Unable to place bed foot" e], none⟩
    | (t1, none) =>
      match CreateBlock tr (bedMat d "head") (d.x + dx) d.y (d.z + dz) with
      | (t2, some e) =>
        let r := DeleteBlock tr d.x d.y d.z
        ⟨t1 ++ t2 ++ r.fst, [.error "Unable to place bed head" e], none⟩
      | (t2, none) => ⟨t1 ++ t2, [], some (bedId d)⟩

/-- Model of `bedResource.Delete`: delete the foot, then (when the stored
direction is valid) the head, ignoring the outcome of both deletions. -/
def bedDelete (tr : Transport) (d : BedData) : OpOutcome Unit :=
  let r1 := DeleteBlock tr d.x d.y d.z
  match bedOffset d.direction with
  | some (dx, dz) =>
    let r2 := DeleteBlock tr (d.x + dx) d.y (d.z + dz)
    ⟨r1.fst ++ r2.fst, [], some ()⟩
  | none => ⟨r1.fst, [], some ()⟩

/-- Declared attributes of a chest resource (`chestResourceData`). -/
structure ChestData where
  size : String
  trapped : Option Bool
  waterlogged : Option Bool
  x : Int
  y : Int
  z : Int
deriving DecidableEq, Repr

/-- Chest material selection (`minecraft:chest` / `minecraft:trapped_chest`). -/
def chestMaterial (trapped : Bool) : String :=
  if trapped then "minecraft:trapped_chest" else "minecraft:chest"

/-- Block-state string for one chest block, as formatted in
`chestResource.Create`. -/
def chestBlockStr (trapped waterlogged : Bool) (ty : String) : String :=
  chestMaterial trapped ++ "[type=" ++ ty ++ ",waterlogged="
    ++ boolStr waterlogged ++ "]"

/-- Identity stored for a chest (`chest-x-y-z`). -/
def chestId (x y z : Int) : String :=
  "chest-" ++ toString x ++ "-" ++ toString y ++ "-" ++ toString z

/-- Model of `chestResource.Create`: a single chest is one placement; a
double chest places the left half at the anchor and the right half one
block along x, compensating with a deletion of the left half when the
right half fails and reporting the right half's failure. -/
def chestCreate (tr : Transport) (d : ChestData) : OpOutcome String :=
  let waterlogged := d.waterlogged.getD false
  let trapped := d.trapped.getD false
  if d.size = "single" then
    match CreateBlock tr (chestBlockStr trapped waterlogged "single") d.x d.y d.z with
    | (t, some e) => ⟨t, [.error "Unable to place single chest" e], none⟩
    | (t, none) => ⟨t, [], some (chestId d.x d.y d.z)⟩
  else if d.size = "double" then
    match CreateBlock tr (chestBlockStr trapped waterlogged "left") d.x d.y d.z with
    | (t1, some e) => ⟨t1, [.error "Unable to place left half of double chest" e], none⟩
    | (t1, none) =>
      match CreateBlock tr (chestBlockStr trapped waterlogged "right") (d.x + 1) d.y d.z with
      | (t2, some e) =>
        let r := DeleteBlock tr d.x d.y d.z
        ⟨t1 ++ t2 ++ r.fst, [.error "Unable to place right half of double chest" e], none⟩
      | (t2, none) => ⟨t1 ++ t2, [], some (chestId d.x d.y d.z)⟩
  else ⟨[], [.validation "size must be single or double"], none⟩

/-- Model of `chestResource.Delete`: delete the anchor block, and for a
double chest also the block one along x, ignoring both outcomes. -/
def chestDelete (tr : Transport) (d : ChestData) : OpOutcome Unit :=
  let r1 := DeleteBlock tr d.x d.y d.z
  if d.size = "double" then
    let r2 := DeleteBlock tr (d.x + 1) d.y d.z
    ⟨r1.fst ++ r2.fst, [], some ()⟩
  else ⟨r1.fst, [], some ()⟩

/-- Model of `gameruleResource.Delete`: reset the rule to its vanilla
default, demoting a reset failure to a warning. -/
def gameruleDelete (tr : Transport) (name : String) : OpOutcome Unit :=
  let name := goTrim name
  match ResetGameRuleToDefault tr name with
  | (t, some e) => ⟨t, [.warning "Could not reset gamerule to default" e], some ()⟩
  | (t, none) => ⟨t, [], some ()⟩

/-- Mode validation used by the gamemode reconciler (`validateMode`). -/
def validateMode (m : String) : Bool :=
  m = "survival" || m = "creative" || m = "adventure" || m = "spectator"

/-- State stored for a gamemode resource (`gamemodeResourceData`):
identity, declared mode, target player (empty for the server default) and
the best-effort snapshot of the prior mode. -/
structure GamemodeState where
  id : String
  mode : String
  player : String
  previousMode : String
deriving DecidableEq, Repr

/-- Model of `gamemodeResource.Create`: validate the mode, snapshot the
mode in effect (best effort: a getter error or empty result leaves the
snapshot empty), then apply the new mode; only the setter's failure
aborts the operation. -/
def gamemodeCreate (tr : Transport) (planMode planPlayer : String) :
    OpOutcome GamemodeState :=
  let mode := goToLower (goTrim planMode)
  if ¬ validateMode mode then
    ⟨[], [.validation "mode must be one of: survival, creative, adventure, spectator"], none⟩
  else
    let player := goTrim planPlayer
    if player = "" then
      let g := GetDefaultGameMode tr
      let prev := match g.snd with
        | .ok got => if got ≠ "" then got else ""
        | .error _ => ""
      match SetDefaultGameMode tr mode with
      | (t2, some e) => ⟨g.fst ++ t2, [.error "Unable to set default gamemode" e], none⟩
      | (t2, none) => ⟨g.fst ++ t2, [], some ⟨"default", planMode, planPlayer, prev⟩⟩
    else
      let g := GetUserGameMode tr player
      let prev := match g.snd with
        | .ok got => if got ≠ "" then got else ""
        | .error _ => ""
      match SetUserGameMode tr mode player with
      | (t2, some e) => ⟨g.fst ++ t2, [.error "Unable to set player gamemode" e], none⟩
      | (t2, none) => ⟨g.fst ++ t2, [], some ⟨"player:" ++ player, planMode, planPlayer, prev⟩⟩

/-- Model of `gamemodeResource.Delete`: when a snapshot was captured,
re-apply it to the same target, demoting a restore failure to a warning;
without a snapshot nothing is sent. -/
def gamemodeDelete (tr : Transport) (st : GamemodeState) : OpOutcome Unit :=
  let prev := goTrim st.previousMode
  let player := goTrim st.player
  if prev ≠ "" then
    if player = "" then
      match SetDefaultGameMode tr prev with
      | (t, some e) => ⟨t, [.warning "Failed to restore default gamemode" e], some ()⟩
      | (t, none) => ⟨t, [], some ()⟩
    else
      match SetUserGameMode tr prev player with
      | (t, some e) => ⟨t, [.warning "Failed to restore player gamemode" e], some ()⟩
      | (t, none) => ⟨t, [], some ()⟩
  else ⟨[], [], some ()⟩

/-- Transport that accepts every command. -/
def trOk : Transport := ⟨fun _ => .ok ""⟩

example : goTrim "  keepInventory " = "keepInventory" := by decide
example : isBoolRule "keepInventory" = true := by decide
example : readRuleReply "42" = "42" := by decide
example : readRuleReply "Gamerule doFireTick is currently set to: true" = "true" := by decide
example : readRuleReply "TRUE" = "TRUE" := by decide
example : (ResetGameRuleToDefault ⟨fun _ => .ok ""⟩ "keepInventory").fst
    = [Cmd.gamerule "keepInventory" (some "false")] := by decide
example : (bedCreate trOk ⟨"minecraft:red_bed", 10, 64, 10, "east", none⟩).trace
    = [.setblock "minecraft:red_bed[facing=east,part=foot,occupied=false]" 10 64 10,
       .setblock "minecraft:red_bed[facing=east,part=head,occupied=false]" 11 64 10] := by decide
example : (bedDelete trOk ⟨"minecraft:red_bed", 0, 64, 0, "east", none⟩).trace
    = [.setblock "minecraft:air" 0 64 0, .setblock "minecraft:air" 1 64 0] := by decide
example : (GetUserGameMode ⟨fun s => if s = "/data get entity alice playerGameType"
      then .ok "Alice has the following entity data: 2" else .ok "ok"⟩ "alice").snd
    = .ok "adventure" := by decide
example : (gameruleDelete trOk "myCustomRule") =
    ⟨[], [.warning "Could not reset gamerule to default" (.noKnownDefault "myCustomRule")], some ()⟩ := by decide
example : selectorByCustomName "A\"B"
    = "@e[nbt=\x7bCustomName:\x27\x7b\"text\":\"A\\\"B\"\x7d\x27\x7d]" := by decide


/-!
Reasoning layer: a run-based reformulation of `fieldsList`, structural
facts about fields and trimming, and helper lemmas for the registries.
-/

/-- Run-based reformulation of `strings.Fields`: peel off maximal
non-whitespace runs.  Easier to reason about than the accumulator loop;
`fieldsList_eq_spec` proves the two agree. -/
def fieldsSpec (l : List Char) : List (List Char) :=
  match l with
  | [] => []
  | c :: cs =>
    if isWS c then fieldsSpec cs
    else
      ((c :: cs).takeWhile (fun d => !isWS d)) ::
        fieldsSpec ((c :: cs).dropWhile (fun d => !isWS d))
termination_by l.length
decreasing_by
  · simp only [List.length_cons]
    omega
  · rename_i h
    have hc : (!isWS c) = true := by
      cases hb : isWS c
      · rfl
      · exact absurd hb h
    simp only [List.dropWhile_cons, hc, if_true]
    have hle := (List.dropWhile_suffix (l := cs) (fun d => !isWS d)).length_le
    simp only [List.length_cons]
    omega

theorem fieldsSpec_nil : fieldsSpec [] = [] := by
  rw [fieldsSpec.eq_def]

theorem fieldsSpec_cons_ws {c : Char} {cs : List Char} (h : isWS c = true) :
    fieldsSpec (c :: cs) = fieldsSpec cs := by
  rw [fieldsSpec.eq_def]
  simp [h]

theorem fieldsSpec_cons_nws {c : Char} {cs : List Char} (h : isWS c = false) :
    fieldsSpec (c :: cs) =
      (c :: cs.takeWhile (fun d => !isWS d)) ::
        fieldsSpec (cs.dropWhile (fun d => !isWS d)) := by
  rw [fieldsSpec.eq_def]
  simp [h, List.takeWhile_cons, List.dropWhile_cons]

theorem fieldsAux_eq (l : List Char) : ∀ acc : List Char,
    fieldsAux l acc =
      if acc.isEmpty then fieldsSpec l
      else (acc.reverse ++ l.takeWhile (fun d => !isWS d)) ::
        fieldsSpec (l.dropWhile (fun d => !isWS d)) := by
  induction l with
  | nil =>
    intro acc
    cases acc <;> simp [fieldsAux, fieldsSpec_nil]
  | cons c cs ih =>
    intro acc
    by_cases hw : isWS c
    · have hnw : (!isWS c) = false := by simp [hw]
      rw [fieldsAux, if_pos hw, fieldsSpec_cons_ws hw]
      have hbase : fieldsAux cs [] = fieldsSpec cs := by simpa using ih []
      cases acc with
      | nil => simpa using hbase
      | cons a as =>
        simp only [List.isEmpty_cons, List.takeWhile_cons, List.dropWhile_cons,
          hnw, if_false, Bool.false_eq_true, hbase]
        simp [fieldsSpec_cons_ws hw]
    · have hw' : isWS c = false := by simpa using hw
      have hnw : (!isWS c) = true := by simp [hw']
      rw [fieldsAux, if_neg hw, ih (c :: acc), fieldsSpec_cons_nws hw']
      simp only [List.takeWhile_cons, List.dropWhile_cons, hnw, if_true]
      cases acc <;> simp

theorem fieldsList_eq_spec (l : List Char) : fieldsList l = fieldsSpec l := by
  simpa [fieldsList] using fieldsAux_eq l []

theorem mem_fieldsSpec {l f : List Char} (h : f ∈ fieldsSpec l) :
    f ≠ [] ∧ ∀ c ∈ f, isWS c = false := by
  induction l using fieldsSpec.induct with
  | case1 => simp [fieldsSpec_nil] at h
  | case2 c cs hw ih => exact ih (by rwa [fieldsSpec_cons_ws hw] at h)
  | case3 c cs hw ih =>
    have hw' : isWS c = false := by simpa using hw
    rw [fieldsSpec_cons_nws hw'] at h
    rcases List.mem_cons.mp h with hf | hf
    · subst hf
      refine ⟨by simp, ?_⟩
      intro d hd
      rcases List.mem_cons.mp hd with rfl | hd
      · exact hw'
      · simpa using List.mem_takeWhile_imp hd
    · apply ih
      have hpos : (!isWS c) = true := by simp [hw']
      rw [List.dropWhile_cons_of_pos (p := fun d => !isWS d) hpos]
      exact hf

theorem fieldsSpec_eq_nil_iff {l : List Char} :
    fieldsSpec l = [] ↔ ∀ c ∈ l, isWS c = true := by
  induction l using fieldsSpec.induct with
  | case1 => simp [fieldsSpec_nil]
  | case2 c cs hw ih =>
    rw [fieldsSpec_cons_ws hw]
    simp only [List.mem_cons]
    constructor
    · intro h d hd
      rcases hd with rfl | hd
      · exact hw
      · exact ih.mp h d hd
    · intro h
      exact ih.mpr fun d hd => h d (Or.inr hd)
  | case3 c cs hw ih =>
    have hw' : isWS c = false := by simpa using hw
    rw [fieldsSpec_cons_nws hw']
    simp only [List.mem_cons]
    constructor
    · intro h
      exact absurd h (by simp)
    · intro h
      exact absurd (h c (Or.inl rfl)) (by simp [hw'])

theorem fieldsSpec_singleton {l f : List Char} (h : fieldsSpec l = [f]) :
    ∃ pre post, l = pre ++ f ++ post ∧ (∀ c ∈ pre, isWS c = true) ∧
      (∀ c ∈ post, isWS c = true) ∧ f ≠ [] ∧ (∀ c ∈ f, isWS c = false) := by
  induction l using fieldsSpec.induct with
  | case1 => simp [fieldsSpec_nil] at h
  | case2 c cs hw ih =>
    rw [fieldsSpec_cons_ws hw] at h
    obtain ⟨pre, post, hl, hpre, hpost, hf⟩ := ih h
    exact ⟨c :: pre, post, by simp [hl], by
      intro d hd
      rcases List.mem_cons.mp hd with rfl | hd
      · exact hw
      · exact hpre d hd, hpost, hf⟩
  | case3 c cs hw ih =>
    have hw' : isWS c = false := by simpa using hw
    have hpos : (!isWS c) = true := by simp [hw']
    rw [fieldsSpec_cons_nws hw'] at h
    have hf : f = c :: cs.takeWhile (fun d => !isWS d) :=
      (List.cons_eq_cons.mp h).1.symm
    have hrest : fieldsSpec (cs.dropWhile (fun d => !isWS d)) = [] :=
      (List.cons_eq_cons.mp h).2
    refine ⟨[], cs.dropWhile (fun d => !isWS d), ?_, by simp, ?_, ?_, ?_⟩
    · subst hf
      simp only [List.nil_append, List.cons_append]
      rw [List.takeWhile_append_dropWhile]
    · intro d hd
      have := fieldsSpec_eq_nil_iff.mp hrest d hd
      exact this
    · subst hf; simp
    · subst hf
      intro d hd
      rcases List.mem_cons.mp hd with rfl | hd
      · exact hw'
      · simpa using List.mem_takeWhile_imp hd

theorem dropWhile_append_of_all {α : Type} {p : α → Bool} {l1 l2 : List α}
    (h : ∀ c ∈ l1, p c = true) :
    (l1 ++ l2).dropWhile p = l2.dropWhile p := by
  induction l1 with
  | nil => simp
  | cons a l ih =>
    rw [List.cons_append, List.dropWhile_cons_of_pos (h a (by simp))]
    exact ih fun c hc => h c (by simp [hc])

theorem dropWhile_eq_self_of_all {α : Type} {p : α → Bool} {l : List α}
    (h : ∀ c ∈ l, p c = false) : l.dropWhile p = l := by
  cases l with
  | nil => rfl
  | cons a l => exact List.dropWhile_cons_of_neg (by simp [h a (by simp)])

theorem goTrimList_decomp {pre f post : List Char}
    (hpre : ∀ c ∈ pre, isWS c = true) (hpost : ∀ c ∈ post, isWS c = true)
    (hne : f ≠ []) (hf : ∀ c ∈ f, isWS c = false) :
    goTrimList (pre ++ f ++ post) = f := by
  unfold goTrimList
  rw [List.append_assoc, dropWhile_append_of_all hpre]
  obtain ⟨d, f', rfl⟩ : ∃ d f', f = d :: f' := by
    cases f with
    | nil => exact absurd rfl hne
    | cons d f' => exact ⟨d, f', rfl⟩
  rw [List.cons_append,
    List.dropWhile_cons_of_neg (by simp [hf d (by simp)])]
  rw [show (d :: (f' ++ post)).reverse = post.reverse ++ (d :: f').reverse by
    rw [← List.cons_append, List.reverse_append]]
  rw [dropWhile_append_of_all (by intro c hc; exact hpost c (by simpa using hc))]
  rw [dropWhile_eq_self_of_all (by
    intro c hc
    apply hf c
    simp only [List.mem_reverse] at hc
    exact hc)]
  simp

theorem head_dropWhile_false {α : Type} (p : α → Bool) (l : List α) {c : α}
    (h : (l.dropWhile p).head? = some c) : p c = false := by
  induction l with
  | nil => simp at h
  | cons a l ih =>
    by_cases hp : p a
    · rw [List.dropWhile_cons_of_pos hp] at h
      exact ih h
    · rw [List.dropWhile_cons_of_neg hp] at h
      simp only [List.head?_cons, Option.some.injEq] at h
      subst h
      simpa using hp

theorem dropWhile_eq_self_of_head {α : Type} {p : α → Bool} {l : List α}
    (h : ∀ c, l.head? = some c → p c = false) : l.dropWhile p = l := by
  cases l with
  | nil => rfl
  | cons a l => exact List.dropWhile_cons_of_neg (by simp [h a rfl])

theorem goTrimList_fixed (l : List Char) :
    goTrimList (goTrimList l) = goTrimList l := by
  set A := l.dropWhile isWS with hA
  set B := A.reverse.dropWhile isWS with hB
  have hpre : B.reverse <+: A := by
    have hsuf : B <:+ A.reverse := by rw [hB]; exact List.dropWhile_suffix isWS
    have := List.reverse_prefix.mpr hsuf
    simpa using this
  have hmhead : ∀ c, B.reverse.head? = some c → isWS c = false := by
    intro c hc
    obtain ⟨t, ht⟩ := hpre
    have hAhead : A.head? = some c := by
      rw [← ht]
      cases hBr : B.reverse with
      | nil => rw [hBr] at hc; simp at hc
      | cons b bs =>
        rw [hBr] at hc
        simp only [List.head?_cons, Option.some.injEq] at hc
        simp [hc]
    exact head_dropWhile_false isWS l (by rw [← hA]; exact hAhead)
  have step1 : B.reverse.dropWhile isWS = B.reverse :=
    dropWhile_eq_self_of_head hmhead
  have step2 : B.dropWhile isWS = B := by
    apply dropWhile_eq_self_of_head
    intro c hc
    exact head_dropWhile_false isWS A.reverse (by rw [← hB]; exact hc)
  show ((B.reverse.dropWhile isWS).reverse.dropWhile isWS).reverse = B.reverse
  rw [step1, List.reverse_reverse, step2]

theorem fields_singleton_trim {out f : List Char}
    (h : fieldsSpec (goTrimList out) = [f]) : f = goTrimList out := by
  obtain ⟨pre, post, hl, hpre, hpost, hne, hf⟩ := fieldsSpec_singleton h
  have h2 : goTrimList (goTrimList out) = f := by
    rw [hl]
    exact goTrimList_decomp hpre hpost hne hf
  rw [goTrimList_fixed] at h2
  exact h2.symm

theorem scanRev_append (l1 l2 : List (List Char)) :
    scanRev (l1 ++ l2) =
      match scanRev l2 with
      | some t => some t
      | none => scanRev l1 := by
  induction l1 with
  | nil =>
    simp only [List.nil_append]
    cases h : scanRev l2 <;> simp [h, scanRev]
  | cons f rest ih =>
    rw [List.cons_append]
    rw [show scanRev (f :: (rest ++ l2)) =
      (match scanRev (rest ++ l2) with
       | some t => some t
       | none => scanTok f) from rfl]
    rw [ih]
    cases scanRev l2 <;> simp [scanRev]

theorem scanRev_none_of_all {l : List (List Char)}
    (h : ∀ f ∈ l, scanTok f = none) : scanRev l = none := by
  induction l with
  | nil => rfl
  | cons f rest ih =>
    rw [show scanRev (f :: rest) =
      (match scanRev rest with
       | some t => some t
       | none => scanTok f) from rfl]
    rw [ih fun g hg => h g (by simp [hg]), h f (by simp)]

theorem goTrimList_of_all_nws {f : List Char} (h : ∀ c ∈ f, isWS c = false) :
    goTrimList f = f := by
  unfold goTrimList
  rw [dropWhile_eq_self_of_all h]
  rw [dropWhile_eq_self_of_all (by
    intro c hc
    exact h c (by simpa using hc))]
  simp

theorem toLower_of_isDigit {c : Char} (h : c.isDigit = true) : c.toLower = c := by
  have hle : c.toNat ≤ 57 := by
    simp only [Char.isDigit, Bool.and_eq_true, decide_eq_true_eq] at h
    have h2 : c.val ≤ 57 := h.2
    rw [UInt32.le_def] at h2
    simpa [Char.toNat] using h2
  unfold Char.toLower
  rw [show (let n := c.toNat;
      if n ≥ 65 ∧ n ≤ 90 then Char.ofNat (n + 32) else c) =
      if c.toNat ≥ 65 ∧ c.toNat ≤ 90 then Char.ofNat (c.toNat + 32) else c from rfl]
  rw [if_neg]
  omega

theorem goAtoiSign_default {a : Char} {g : List Char}
    (h1 : a ≠ '+') (h2 : a ≠ '-') : goAtoiSign (a :: g) = (false, a :: g) := by
  unfold goAtoiSign
  split
  · rename_i heq; exact absurd (List.cons_eq_cons.mp heq.symm).1.symm h1
  · rename_i heq; exact absurd (List.cons_eq_cons.mp heq.symm).1.symm h2
  · rfl

theorem goAtoiL_head {a : Char} {g : List Char}
    (h : (goAtoiL (a :: g)).isSome = true) :
    a = '+' ∨ a = '-' ∨ a.isDigit = true := by
  by_cases h1 : a = '+'
  · exact Or.inl h1
  by_cases h2 : a = '-'
  · exact Or.inr (Or.inl h2)
  refine Or.inr (Or.inr ?_)
  rw [goAtoiL, goAtoiSign_default h1 h2] at h
  simp only [] at h
  by_cases hd : (a :: g).all Char.isDigit
  · simpa using (List.all_eq_true.mp hd a (by simp))
  · rw [if_neg (by simp), if_neg hd] at h
    simp at h

theorem goAtoiL_not_bool {f : List Char} (h : (goAtoiL f).isSome = true) :
    asciiLower f ≠ "true".data ∧ asciiLower f ≠ "false".data := by
  cases f with
  | nil => exact absurd h (by decide)
  | cons a g =>
    have htrue : "true".data = ['t', 'r', 'u', 'e'] := rfl
    have hfalse : "false".data = ['f', 'a', 'l', 's', 'e'] := rfl
    constructor <;> intro hlow <;>
      simp only [asciiLower, List.map_cons, htrue, hfalse] at hlow
    · have hha := (List.cons_eq_cons.mp hlow).1
      rcases goAtoiL_head h with rfl | rfl | hd
      · exact absurd hha (by decide)
      · exact absurd hha (by decide)
      · rw [toLower_of_isDigit hd] at hha
        subst hha
        exact absurd hd (by decide)
    · have hha := (List.cons_eq_cons.mp hlow).1
      rcases goAtoiL_head h with rfl | rfl | hd
      · exact absurd hha (by decide)
      · exact absurd hha (by decide)
      · rw [toLower_of_isDigit hd] at hha
        subst hha
        exact absurd hd (by decide)

theorem scanTok_bool {f : List Char} (hnw : ∀ c ∈ f, isWS c = false)
    (hb : asciiLower f = "true".data ∨ asciiLower f = "false".data) :
    scanTok f = some (asciiLower f) := by
  simp only [scanTok]
  rw [goTrimList_of_all_nws hnw]
  rcases hb with hb | hb <;> simp [hb]

theorem scanTok_int {f : List Char} (hnw : ∀ c ∈ f, isWS c = false)
    (hint : (goAtoiL f).isSome = true) :
    scanTok f = some f := by
  have hnb := goAtoiL_not_bool hint
  simp only [scanTok]
  rw [goTrimList_of_all_nws hnw]
  rw [if_neg (by
    intro hcon
    rcases hcon with hc | hc
    · exact hnb.1 hc
    · exact hnb.2 hc)]
  simp [hint]

theorem readRule_single {out f : List Char}
    (hfs : fieldsList (goTrimList out) = [f]) :
    readRuleParseL out = f := by
  simp only [readRuleParseL]
  rw [hfs]

theorem readRule_fallback {out : List Char}
    (h : ∀ f ∈ fieldsList (goTrimList out), scanTok f = none) :
    readRuleParseL out = goTrimList out := by
  simp only [readRuleParseL]
  rcases hfs : fieldsList (goTrimList out) with _ | ⟨f, rest⟩
  · simp [scanRev]
  · rcases rest with _ | ⟨g, rest'⟩
    · have hsing : f = goTrimList out := by
        apply fields_singleton_trim
        rw [← fieldsList_eq_spec]
        exact hfs
      simpa using hsing
    · have hnone : scanRev (f :: g :: rest') = none := by
        apply scanRev_none_of_all
        intro x hx
        apply h
        rw [hfs]
        exact hx
      simp [hnone]

theorem readRule_multi_hit {out : List Char} {pre post : List (List Char)}
    {f tok : List Char}
    (hfs : fieldsList (goTrimList out) = pre ++ f :: post)
    (hlen : (pre ++ f :: post).length ≠ 1)
    (hpost : ∀ g ∈ post, scanTok g = none)
    (htok : scanTok f = some tok) :
    readRuleParseL out = tok := by
  have hscan : scanRev (pre ++ f :: post) = some tok := by
    rw [scanRev_append]
    rw [show scanRev (f :: post) =
      (match scanRev post with
       | some t => some t
       | none => scanTok f) from rfl]
    rw [scanRev_none_of_all hpost, htok]
  obtain ⟨a, b, t, hL⟩ : ∃ a b t, pre ++ f :: post = a :: b :: t := by
    rcases hl : pre ++ f :: post with _ | ⟨a, _ | ⟨b, t⟩⟩
    · exact absurd hl (by simp)
    · exact absurd (by rw [hl]; rfl) hlen
    · exact ⟨a, b, t, rfl⟩
  rw [hL] at hscan hfs
  simp only [readRuleParseL]
  rw [hfs]
  simp [hscan]

theorem CreateBlock_fst (tr : Transport) (m : String) (x y z : Int) :
    (CreateBlock tr m x y z).fst = [Cmd.setblock m x y z] := by
  simp only [CreateBlock]
  cases tr.send (render (Cmd.setblock m x y z)) <;> rfl

theorem CreateBlock_ok {tr : Transport} {m : String} {x y z : Int} {r : String}
    (h : tr.send (render (Cmd.setblock m x y z)) = .ok r) :
    CreateBlock tr m x y z = ([Cmd.setblock m x y z], none) := by
  simp only [CreateBlock]
  rw [h]

theorem CreateBlock_err {tr : Transport} {m : String} {x y z : Int} {e : String}
    (h : tr.send (render (Cmd.setblock m x y z)) = .error e) :
    CreateBlock tr m x y z = ([Cmd.setblock m x y z], some (.transport e)) := by
  simp only [CreateBlock]
  rw [h]

theorem DeleteBlock_fst (tr : Transport) (x y z : Int) :
    (DeleteBlock tr x y z).fst = [Cmd.setblock "minecraft:air" x y z] := by
  simp only [DeleteBlock]
  cases tr.send (render (Cmd.setblock "minecraft:air" x y z)) <;> rfl

theorem SetUserGameMode_ok {tr : Transport} {m n r : String}
    (h : tr.send (render (Cmd.gamemodeSet m n)) = .ok r) :
    SetUserGameMode tr m n = ([Cmd.gamemodeSet m n], none) := by
  simp only [SetUserGameMode]
  rw [h]

theorem SetUserGameMode_err {tr : Transport} {m n e : String}
    (h : tr.send (render (Cmd.gamemodeSet m n)) = .error e) :
    SetUserGameMode tr m n = ([Cmd.gamemodeSet m n], some (.transport e)) := by
  simp only [SetUserGameMode]
  rw [h]

theorem GetUserGameMode_fst (tr : Transport) (n : String) :
    (GetUserGameMode tr n).fst = [Cmd.dataGetEntity n] := by
  simp only [GetUserGameMode]
  cases tr.send (render (Cmd.dataGetEntity n)) <;> rfl

theorem lookupStr_none_of_not_contains {β : Type} {l : List (String × β)}
    {k : String} (h : (l.map Prod.fst).contains k = false) :
    lookupStr l k = none := by
  induction l with
  | nil => rfl
  | cons p rest ih =>
    simp only [List.map_cons, List.contains_cons, Bool.or_eq_false_iff,
      beq_eq_false_iff_ne, ne_eq] at h
    unfold lookupStr
    rw [if_neg h.1]
    exact ih (by simpa using h.2)

theorem defaultBoolRules_keys : defaultBoolRules.map Prod.fst = boolRules := by rfl

theorem defaultIntRules_keys : defaultIntRules.map Prod.fst = intRules := by rfl

theorem lookups_none_of_unknown {rule : String}
    (hb : isBoolRule rule = false) (hi : isIntRule rule = false) :
    lookupStr defaultBoolRules rule = none ∧
      lookupStr defaultIntRules rule = none := by
  constructor
  · exact lookupStr_none_of_not_contains (by rw [defaultBoolRules_keys]; exact hb)
  · exact lookupStr_none_of_not_contains (by rw [defaultIntRules_keys]; exact hi)

theorem gameModeNames_mem {id : Int} {g : String} (h : gameModeNames id = some g) :
    g = "survival" ∨ g = "creative" ∨ g = "adventure" ∨ g = "spectator" := by
  unfold gameModeNames at h
  split at h
  · simp_all
  · split at h
    · simp_all
    · split at h
      · simp_all
      · split at h
        · simp_all
        · simp at h

theorem parseGameModeReply_ok_mem {out g : String}
    (h : parseGameModeReply out = .ok g) :
    g = "survival" ∨ g = "creative" ∨ g = "adventure" ∨ g = "spectator" := by
  simp only [parseGameModeReply] at h
  split at h
  · simp at h
  · split at h
    · simp at h
    · split at h
      · simp at h
      · rename_i id m hg
        simp only [Except.ok.injEq] at h
        subst h
        exact gameModeNames_mem hg

theorem GetUserGameMode_ok_mem {tr : Transport} {n g : String}
    (h : (GetUserGameMode tr n).snd = .ok g) :
    g = "survival" ∨ g = "creative" ∨ g = "adventure" ∨ g = "spectator" := by
  simp only [GetUserGameMode] at h
  rcases hs : tr.send (render (Cmd.dataGetEntity n)) with e | out <;>
    rw [hs] at h
  · simp at h
  · exact parseGameModeReply_ok_mem (by simpa using h)

/-!
Claim theorems.  Each theorem settles one claim of the specification
against the embedded code.
-/

theorem SetGameRuleBool_fst_known (tr : Transport) (rule : String) (value : Bool)
    (h : isBoolRule (goTrim rule) = true) :
    (SetGameRuleBool tr rule value).fst
      = [Cmd.gamerule (goTrim rule) (some (boolStr value))] := by
  simp only [SetGameRuleBool]
  rw [if_neg (by simp [h])]
  cases tr.send (render (Cmd.gamerule (goTrim rule) (some (boolStr value)))) <;> rfl

theorem SetGameRuleInt_fst_known (tr : Transport) (rule : String) (value : Int)
    (h : isIntRule (goTrim rule) = true) :
    (SetGameRuleInt tr rule value).fst
      = [Cmd.gamerule (goTrim rule) (some (toString value))] := by
  simp only [SetGameRuleInt]
  rw [if_neg (by simp [h])]
  cases tr.send (render (Cmd.gamerule (goTrim rule) (some (toString value)))) <;> rfl

/-- C9: `ResetGameRuleToDefault "keepInventory"` issues a set command
carrying the registered boolean default `false`, and
`ResetGameRuleToDefault "spawnRadius"` issues a set command carrying the
registered integer default `5`, whatever the transport replies. -/
theorem C9_reset_known_defaults (tr : Transport) :
    (ResetGameRuleToDefault tr "keepInventory").fst
        = [Cmd.gamerule "keepInventory" (some "false")] ∧
    (ResetGameRuleToDefault tr "spawnRadius").fst
        = [Cmd.gamerule "spawnRadius" (some "5")] := by
  constructor
  · have hk : goTrim "keepInventory" = "keepInventory" := by decide
    simp only [ResetGameRuleToDefault, hk]
    rw [show lookupStr defaultBoolRules "keepInventory" = some false from by decide]
    have h := SetGameRuleBool_fst_known tr "keepInventory" false (by decide)
    rw [hk] at h
    exact h.trans (by decide)
  · have hs : goTrim "spawnRadius" = "spawnRadius" := by decide
    simp only [ResetGameRuleToDefault, hs]
    rw [show lookupStr defaultBoolRules "spawnRadius" = none from by decide]
    rw [show lookupStr defaultIntRules "spawnRadius" = some 5 from by decide]
    have h := SetGameRuleInt_fst_known tr "spawnRadius" 5 (by decide)
    rw [hs] at h
    exact h.trans (by decide)

/-- C4: a rule name (after trimming) outside both registries makes
`SetGameRuleBool`, `SetGameRuleInt` and `ResetGameRuleToDefault` fail with
their recognizable unknown-rule errors without issuing any command. -/
theorem C4_unknown_rule_rejected (tr : Transport) (rule : String) (v : Bool) (n : Int)
    (hb : isBoolRule (goTrim rule) = false) (hi : isIntRule (goTrim rule) = false) :
    SetGameRuleBool tr rule v = ([], some (.unknownBoolRule (goTrim rule))) ∧
    SetGameRuleInt tr rule n = ([], some (.unknownIntRule (goTrim rule))) ∧
    ResetGameRuleToDefault tr rule = ([], some (.noKnownDefault (goTrim rule))) := by
  obtain ⟨hdb, hdi⟩ := lookups_none_of_unknown hb hi
  refine ⟨?_, ?_, ?_⟩
  · simp only [SetGameRuleBool]
    rw [if_pos (by simp [hb])]
  · simp only [SetGameRuleInt]
    rw [if_pos (by simp [hi])]
  · simp only [ResetGameRuleToDefault, hdb, hdi]

theorem C4_unknown_rule_rejected_witness :
    SetGameRuleBool trOk "flyMode" true = ([], some (.unknownBoolRule "flyMode")) ∧
    SetGameRuleInt trOk "flyMode" 0 = ([], some (.unknownIntRule "flyMode")) ∧
    ResetGameRuleToDefault trOk "flyMode" = ([], some (.noKnownDefault "flyMode")) := by
  have h := C4_unknown_rule_rejected trOk "flyMode" true 0 (by decide) (by decide)
  exact ⟨h.1.trans (by decide), h.2.1.trans (by decide), h.2.2.trans (by decide)⟩

/-- C7: bed creation places the foot at the declared position and the
head exactly one block away in the declared direction; in particular
`east` offsets x by `+1` and `north` offsets z by `-1`. -/
theorem C7_bed_head_offset (tr : Transport) (d : BedData) (dx dz : Int) (r1 r2 : String)
    (hoff : bedOffset d.direction = some (dx, dz))
    (h1 : tr.send (render (Cmd.setblock (bedMat d "foot") d.x d.y d.z)) = .ok r1)
    (h2 : tr.send (render (Cmd.setblock (bedMat d "head") (d.x + dx) d.y (d.z + dz)))
        = .ok r2) :
    (bedCreate tr d).trace =
      [Cmd.setblock (bedMat d "foot") d.x d.y d.z,
       Cmd.setblock (bedMat d "head") (d.x + dx) d.y (d.z + dz)] ∧
    bedOffset "east" = some (1, 0) ∧ bedOffset "north" = some (0, -1) := by
  refine ⟨?_, by decide, by decide⟩
  simp only [bedCreate, hoff]
  rw [CreateBlock_ok h1, CreateBlock_ok h2]
  simp

theorem C7_bed_head_offset_witness :
    (bedCreate trOk ⟨"minecraft:red_bed", 10, 64, 10, "east", none⟩).trace =
      [Cmd.setblock "minecraft:red_bed[facing=east,part=foot,occupied=false]" 10 64 10,
       Cmd.setblock "minecraft:red_bed[facing=east,part=head,occupied=false]" 11 64 10] ∧
    (bedCreate trOk ⟨"minecraft:red_bed", 10, 64, 10, "north", none⟩).trace =
      [Cmd.setblock "minecraft:red_bed[facing=north,part=foot,occupied=false]" 10 64 10,
       Cmd.setblock "minecraft:red_bed[facing=north,part=head,occupied=false]" 10 64 9] := by
  constructor
  · have h := C7_bed_head_offset trOk ⟨"minecraft:red_bed", 10, 64, 10, "east", none⟩
      1 0 "" "" (by decide) rfl rfl
    exact h.1.trans (by decide)
  · have h := C7_bed_head_offset trOk ⟨"minecraft:red_bed", 10, 64, 10, "north", none⟩
      0 (-1) "" "" (by decide) rfl rfl
    exact h.1.trans (by decide)

/-- C8: `selectorByCustomName` escapes embedded double quotes (shown both
on the concrete input `A"B` and structurally: each quote in the input
becomes a backslash-quote pair in the escaped text), and calling it twice
on the same input yields byte-identical output. -/
theorem C8_selector_escaping :
    selectorByCustomName "A\"B"
        = "@e[nbt=\x7bCustomName:\x27\x7b\"text\":\"A\\\"B\"\x7d\x27\x7d]" ∧
    (∀ a b : List Char,
      goReplaceQuote (a ++ '"' :: b) =
        goReplaceQuote a ++ '\\' :: '"' :: goReplaceQuote b) ∧
    (∀ s : String, selectorByCustomName s = selectorByCustomName s) := by
  refine ⟨by decide, ?_, fun s => rfl⟩
  intro a b
  induction a with
  | nil => simp [goReplaceQuote]
  | cons c cs ih =>
    by_cases hc : c = '"' <;> simp [goReplaceQuote, hc, ih]

/-- C1: for a double chest whose left-half placement succeeds and whose
right-half placement fails, exactly one compensating deletion is issued,
targeting the left-half coordinate, and the reported error is the
right-half placement failure (independently of the compensation's own
outcome). -/
theorem C1_chest_right_failure_compensation (tr : Transport) (d : ChestData)
    (e r : String)
    (hsize : d.size = "double")
    (hleft : tr.send (render (Cmd.setblock
        (chestBlockStr (d.trapped.getD false) (d.waterlogged.getD false) "left")
        d.x d.y d.z)) = .ok r)
    (hright : tr.send (render (Cmd.setblock
        (chestBlockStr (d.trapped.getD false) (d.waterlogged.getD false) "right")
        (d.x + 1) d.y d.z)) = .error e) :
    chestCreate tr d =
      ⟨[Cmd.setblock (chestBlockStr (d.trapped.getD false) (d.waterlogged.getD false) "left")
          d.x d.y d.z,
        Cmd.setblock (chestBlockStr (d.trapped.getD false) (d.waterlogged.getD false) "right")
          (d.x + 1) d.y d.z,
        Cmd.setblock "minecraft:air" d.x d.y d.z],
       [.error "Unable to place right half of double chest" (.transport e)],
       none⟩ ∧
    (chestCreate tr d).trace.count (Cmd.setblock "minecraft:air" d.x d.y d.z) = 1 := by
  have hmain : chestCreate tr d =
      ⟨[Cmd.setblock (chestBlockStr (d.trapped.getD false) (d.waterlogged.getD false) "left")
          d.x d.y d.z,
        Cmd.setblock (chestBlockStr (d.trapped.getD false) (d.waterlogged.getD false) "right")
          (d.x + 1) d.y d.z,
        Cmd.setblock "minecraft:air" d.x d.y d.z],
       [.error "Unable to place right half of double chest" (.transport e)],
       none⟩ := by
    simp only [chestCreate, hsize, if_true]
    rw [CreateBlock_ok hleft, CreateBlock_err hright]
    simp [DeleteBlock_fst]
  refine ⟨hmain, ?_⟩
  rw [show (chestCreate tr d).trace =
    [Cmd.setblock (chestBlockStr (d.trapped.getD false) (d.waterlogged.getD false) "left")
        d.x d.y d.z,
      Cmd.setblock (chestBlockStr (d.trapped.getD false) (d.waterlogged.getD false) "right")
        (d.x + 1) d.y d.z,
      Cmd.setblock "minecraft:air" d.x d.y d.z] from congrArg OpOutcome.trace hmain]
  have hne1 : chestBlockStr (d.trapped.getD false) (d.waterlogged.getD false) "left"
      ≠ "minecraft:air" := by
    cases d.trapped.getD false <;> cases d.waterlogged.getD false <;> decide
  have hne2 : chestBlockStr (d.trapped.getD false) (d.waterlogged.getD false) "right"
      ≠ "minecraft:air" := by
    cases d.trapped.getD false <;> cases d.waterlogged.getD false <;> decide
  simp [List.count_cons, Cmd.setblock.injEq, hne1, hne2]

theorem C1_chest_right_failure_compensation_witness :
    chestCreate ⟨fun s => if s = "setblock 1 64 2 minecraft:chest[type=right,waterlogged=false] replace"
        then .error "server rejected right half" else .ok ""⟩
      ⟨"double", none, none, 0, 64, 2⟩ =
      ⟨[Cmd.setblock "minecraft:chest[type=left,waterlogged=false]" 0 64 2,
        Cmd.setblock "minecraft:chest[type=right,waterlogged=false]" 1 64 2,
        Cmd.setblock "minecraft:air" 0 64 2],
       [.error "Unable to place right half of double chest"
          (.transport "server rejected right half")],
       none⟩ := by
  have h := C1_chest_right_failure_compensation
    ⟨fun s => if s = "setblock 1 64 2 minecraft:chest[type=right,waterlogged=false] replace"
        then .error "server rejected right half" else .ok ""⟩
    ⟨"double", none, none, 0, 64, 2⟩ "server rejected right half" "" rfl (by decide) (by decide)
  exact h.1.trans (by decide)

theorem goTrim_fixed (s : String) : goTrim (goTrim s) = goTrim s := by
  simp [goTrim, goTrimList_fixed]

/-- C2 counterexample: tearing down the bed at foot (0,64,0) facing east
(and the double chest anchored at (0,64,0)) issues the foot (left)
deletion before the head (right) deletion, so the claimed reverse
deletion order (head before foot, right before left) does not hold. -/
theorem C2_teardown_reverse_order_counterexample :
    (bedDelete trOk ⟨"minecraft:red_bed", 0, 64, 0, "east", none⟩).trace
        = [Cmd.setblock "minecraft:air" 0 64 0, Cmd.setblock "minecraft:air" 1 64 0] ∧
    (bedDelete trOk ⟨"minecraft:red_bed", 0, 64, 0, "east", none⟩).trace
        ≠ [Cmd.setblock "minecraft:air" 1 64 0, Cmd.setblock "minecraft:air" 0 64 0] ∧
    (chestDelete trOk ⟨"double", none, none, 0, 64, 0⟩).trace
        = [Cmd.setblock "minecraft:air" 0 64 0, Cmd.setblock "minecraft:air" 1 64 0] ∧
    (chestDelete trOk ⟨"double", none, none, 0, 64, 0⟩).trace
        ≠ [Cmd.setblock "minecraft:air" 1 64 0, Cmd.setblock "minecraft:air" 0 64 0] :=
  ⟨by decide, by decide, by decide, by decide⟩

/-- C2 (amended): TearDown deletes the two halves in the same order in
which Materialize placed them — foot before head for a bed, left half
before right half for a chest — and ignores deletion errors on each half
(no diagnostics are produced whatever the transport answers). -/
theorem C2_teardown_same_order (tr : Transport) (d : BedData) (cd : ChestData)
    (dx dz : Int)
    (hoff : bedOffset d.direction = some (dx, dz))
    (hsize : cd.size = "double") :
    (bedDelete tr d).trace =
      [Cmd.setblock "minecraft:air" d.x d.y d.z,
       Cmd.setblock "minecraft:air" (d.x + dx) d.y (d.z + dz)] ∧
    (bedDelete tr d).diags = [] ∧
    (chestDelete tr cd).trace =
      [Cmd.setblock "minecraft:air" cd.x cd.y cd.z,
       Cmd.setblock "minecraft:air" (cd.x + 1) cd.y cd.z] ∧
    (chestDelete tr cd).diags = [] := by
  refine ⟨?_, ?_, ?_, ?_⟩
  · simp only [bedDelete, hoff]
    simp [DeleteBlock_fst]
  · simp only [bedDelete, hoff]
  · simp only [chestDelete, hsize, if_true]
    simp [DeleteBlock_fst]
  · simp only [chestDelete, hsize, if_true]

theorem C2_teardown_same_order_witness :
    (bedDelete trOk ⟨"minecraft:blue_bed", 5, 70, 5, "west", none⟩).trace =
      [Cmd.setblock "minecraft:air" 5 70 5, Cmd.setblock "minecraft:air" 4 70 5] ∧
    (bedDelete trOk ⟨"minecraft:blue_bed", 5, 70, 5, "west", none⟩).diags = [] ∧
    (chestDelete trOk ⟨"double", none, none, 7, 64, 8⟩).trace =
      [Cmd.setblock "minecraft:air" 7 64 8, Cmd.setblock "minecraft:air" 8 64 8] ∧
    (chestDelete trOk ⟨"double", none, none, 7, 64, 8⟩).diags = [] := by
  have h := C2_teardown_same_order trOk ⟨"minecraft:blue_bed", 5, 70, 5, "west", none⟩
    ⟨"double", none, none, 7, 64, 8⟩ (-1) 0 (by decide) rfl
  exact ⟨h.1.trans (by decide), h.2.1, h.2.2.1.trans (by decide), h.2.2.2⟩

/-- C3 counterexample: destroying the game-rule object named
"myCustomRule", which has no registered default, does not fail — it
completes with exactly one non-fatal warning, reports no operation error
and sends no command. -/
theorem C3_gamerule_delete_unknown_counterexample :
    gameruleDelete trOk "myCustomRule" =
      ⟨[], [.warning "Could not reset gamerule to default"
          (.noKnownDefault "myCustomRule")], some ()⟩ ∧
    (gameruleDelete trOk "myCustomRule").diags.all (fun d => !d.isError) = true :=
  ⟨by decide, by decide⟩

/-- C3 (amended): destroying a game-rule object whose (trimmed) name has
no registered default completes: it reports a single non-fatal warning
carrying the "no known default" error, reports no operation error, and
issues no command. -/
theorem C3_gamerule_delete_unknown_warns (tr : Transport) (name : String)
    (hdb : lookupStr defaultBoolRules (goTrim name) = none)
    (hdi : lookupStr defaultIntRules (goTrim name) = none) :
    gameruleDelete tr name =
      ⟨[], [.warning "Could not reset gamerule to default"
          (.noKnownDefault (goTrim name))], some ()⟩ ∧
    (gameruleDelete tr name).diags.all (fun d => !d.isError) = true := by
  have hreset : ResetGameRuleToDefault tr (goTrim name)
      = ([], some (.noKnownDefault (goTrim name))) := by
    simp only [ResetGameRuleToDefault, goTrim_fixed, hdb, hdi]
  have hmain : gameruleDelete tr name =
      ⟨[], [.warning "Could not reset gamerule to default"
          (.noKnownDefault (goTrim name))], some ()⟩ := by
    simp only [gameruleDelete]
    rw [hreset]
  exact ⟨hmain, by rw [show (gameruleDelete tr name).diags =
    [.warning "Could not reset gamerule to default" (.noKnownDefault (goTrim name))]
    from congrArg OpOutcome.diags hmain]; rfl⟩

theorem C3_gamerule_delete_unknown_warns_witness :
    gameruleDelete trOk "fancyRule" =
      ⟨[], [.warning "Could not reset gamerule to default"
          (.noKnownDefault (goTrim "fancyRule"))], some ()⟩ ∧
    (gameruleDelete trOk "fancyRule").diags.all (fun d => !d.isError) = true :=
  C3_gamerule_delete_unknown_warns trOk "fancyRule" (by decide) (by decide)

/-- C5: the game-rule read heuristic returns `42` for the bare reply
`42` and `true` for the wrapped `Gamerule doFireTick is currently set
to: true`; whenever no whitespace-separated token of the reply parses as
a boolean or base-10 integer it returns the full trimmed reply verbatim;
and `GetGameRule` never fails when the transport succeeded — it applies
the heuristic to whatever reply came back. -/
theorem C5_readrule_heuristic :
    readRuleReply "42" = "42" ∧
    readRuleReply "Gamerule doFireTick is currently set to: true" = "true" ∧
    (∀ out : String, (∀ f ∈ fieldsList (goTrimList out.data), scanTok f = none) →
      readRuleReply out = goTrim out) ∧
    (∀ (tr : Transport) (rule out : String),
      tr.send (render (Cmd.gamerule (goTrim rule) none)) = .ok out →
      (GetGameRule tr rule).snd = .ok (readRuleReply out)) := by
  refine ⟨by decide, by decide, ?_, ?_⟩
  · intro out h
    have hfall := readRule_fallback h
    simp [readRuleReply, goTrim, hfall]
  · intro tr rule out h
    simp only [GetGameRule]
    rw [h]

theorem C5_readrule_heuristic_witness :
    readRuleReply "Unknown gamerule" = goTrim "Unknown gamerule" ∧
    (GetGameRule trOk "doFireTick").snd = .ok (readRuleReply "") :=
  ⟨C5_readrule_heuristic.2.2.1 "Unknown gamerule" (by decide),
   C5_readrule_heuristic.2.2.2 trOk "doFireTick" "" rfl⟩

/-- C10: the read heuristic case-normalizes boolean tokens only in
multi-token replies.  A one-field reply is returned verbatim (so a bare
`TRUE` stays `TRUE`), while in a longer reply whose last parsable token
is a case variant of true/false the lowercased form is returned (a
trailing `TRUE` becomes `true`); an integer token found by the scan is
returned exactly as it appeared. -/
theorem C10_readrule_case_normalization :
    readRuleReply "TRUE" = "TRUE" ∧
    readRuleReply "Gamerule doFireTick is currently set to: TRUE" = "true" ∧
    (∀ (out : String) (f : List Char),
      fieldsList (goTrimList out.data) = [f] →
      (readRuleReply out).data = f) ∧
    (∀ (out : String) (pre post : List (List Char)) (f : List Char),
      fieldsList (goTrimList out.data) = pre ++ f :: post →
      (pre ++ f :: post).length ≠ 1 →
      (∀ g ∈ post, scanTok g = none) →
      (asciiLower f = "true".data ∨ asciiLower f = "false".data) →
      (readRuleReply out).data = asciiLower f) ∧
    (∀ (out : String) (pre post : List (List Char)) (f : List Char),
      fieldsList (goTrimList out.data) = pre ++ f :: post →
      (pre ++ f :: post).length ≠ 1 →
      (∀ g ∈ post, scanTok g = none) →
      (goAtoiL f).isSome = true →
      (readRuleReply out).data = f) := by
  refine ⟨by decide, by decide, ?_, ?_, ?_⟩
  · intro out f hfs
    exact readRule_single hfs
  · intro out pre post f hfs hlen hpost hb
    have hnw : ∀ c ∈ f, isWS c = false := by
      have hmem : f ∈ fieldsSpec (goTrimList out.data) := by
        rw [← fieldsList_eq_spec, hfs]
        simp
      exact (mem_fieldsSpec hmem).2
    exact readRule_multi_hit hfs hlen hpost (scanTok_bool hnw hb)
  · intro out pre post f hfs hlen hpost hint
    have hnw : ∀ c ∈ f, isWS c = false := by
      have hmem : f ∈ fieldsSpec (goTrimList out.data) := by
        rw [← fieldsList_eq_spec, hfs]
        simp
      exact (mem_fieldsSpec hmem).2
    exact readRule_multi_hit hfs hlen hpost (scanTok_int hnw hint)

theorem C10_readrule_case_normalization_witness :
    (readRuleReply "TRUE").data = ['T', 'R', 'U', 'E'] ∧
    (readRuleReply "value TRUE").data = ['t', 'r', 'u', 'e'] ∧
    (readRuleReply "value 42").data = ['4', '2'] :=
  ⟨C10_readrule_case_normalization.2.2.1 "TRUE" ['T', 'R', 'U', 'E'] (by decide),
   C10_readrule_case_normalization.2.2.2.1 "value TRUE"
     [['v', 'a', 'l', 'u', 'e']] [] ['T', 'R', 'U', 'E']
     (by decide) (by decide) (by decide) (by decide),
   C10_readrule_case_normalization.2.2.2.2 "value 42"
     [['v', 'a', 'l', 'u', 'e']] [] ['4', '2']
     (by decide) (by decide) (by decide) (by decide)⟩

theorem gamemodeDelete_player (tr : Transport) (st : GamemodeState)
    (hprev : goTrim st.previousMode = st.previousMode)
    (hpne : st.previousMode ≠ "")
    (hplayer : goTrim st.player = st.player)
    (hplne : st.player ≠ "") :
    (gamemodeDelete tr st).trace = [Cmd.gamemodeSet st.previousMode st.player] ∧
    (∀ e, tr.send (render (Cmd.gamemodeSet st.previousMode st.player)) = .error e →
      (gamemodeDelete tr st).diags =
        [.warning "Failed to restore player gamemode" (.transport e)]) ∧
    (gamemodeDelete tr st).diags.all (fun d => !d.isError) = true := by
  have hshape : gamemodeDelete tr st =
      match SetUserGameMode tr st.previousMode st.player with
      | (t, some e) => ⟨t, [.warning "Failed to restore player gamemode" e], some ()⟩
      | (t, none) => ⟨t, [], some ()⟩ := by
    simp only [gamemodeDelete, hprev, hplayer]
    rw [if_pos hpne, if_neg hplne]
  refine ⟨?_, ?_, ?_⟩
  · rw [hshape]
    rcases hsend : tr.send (render (Cmd.gamemodeSet st.previousMode st.player)) with e | r
    · rw [SetUserGameMode_err hsend]
    · rw [SetUserGameMode_ok hsend]
  · intro e hsend
    rw [hshape, SetUserGameMode_err hsend]
  · rw [hshape]
    rcases hsend : tr.send (render (Cmd.gamemodeSet st.previousMode st.player)) with e | r
    · rw [SetUserGameMode_err hsend]
      rfl
    · rw [SetUserGameMode_ok hsend]
      rfl

/-- C6: materializing a game-mode object for player `alice` records in
`previous_mode` exactly what `GetUserGameMode` returned immediately
before the mode change; tearing that object down re-issues a set-mode
command carrying exactly that snapshot, and a failing restore produces a
single non-fatal warning, never an operation error. -/
theorem C6_gamemode_snapshot_restore (tr tr2 : Transport) (planMode g r : String)
    (hmode : validateMode (goToLower (goTrim planMode)) = true)
    (hget : (GetUserGameMode tr "alice").snd = .ok g)
    (hset : tr.send (render (Cmd.gamemodeSet (goToLower (goTrim planMode)) "alice"))
        = .ok r) :
    ∃ st : GamemodeState,
      (gamemodeCreate tr planMode "alice").state = some st ∧
      st.previousMode = g ∧ st.player = "alice" ∧
      (gamemodeDelete tr2 st).trace = [Cmd.gamemodeSet g "alice"] ∧
      (∀ e, tr2.send (render (Cmd.gamemodeSet g "alice")) = .error e →
        (gamemodeDelete tr2 st).diags =
          [.warning "Failed to restore player gamemode" (.transport e)]) ∧
      (gamemodeDelete tr2 st).diags.all (fun d => !d.isError) = true := by
  have hmem := GetUserGameMode_ok_mem hget
  have hgne : g ≠ "" := by
    rcases hmem with rfl | rfl | rfl | rfl <;> decide
  have hgtrim : goTrim g = g := by
    rcases hmem with rfl | rfl | rfl | rfl <;> decide
  have halice : goTrim "alice" = "alice" := by decide
  refine ⟨⟨"player:" ++ "alice", planMode, "alice", g⟩, ?_, rfl, rfl, ?_, ?_, ?_⟩
  · simp only [gamemodeCreate]
    rw [if_neg (by simp [hmode])]
    rw [halice, if_neg (by decide)]
    rw [show (match (GetUserGameMode tr "alice").snd with
      | .ok got => if got ≠ "" then got else ""
      | .error _ => "") = g from by rw [hget]; simp [hgne]]
    rw [SetUserGameMode_ok hset]
  · exact (gamemodeDelete_player tr2 ⟨"player:" ++ "alice", planMode, "alice", g⟩
      hgtrim hgne halice (show ("alice" : String) ≠ "" by decide)).1
  · exact (gamemodeDelete_player tr2 ⟨"player:" ++ "alice", planMode, "alice", g⟩
      hgtrim hgne halice (show ("alice" : String) ≠ "" by decide)).2.1
  · exact (gamemodeDelete_player tr2 ⟨"player:" ++ "alice", planMode, "alice", g⟩
      hgtrim hgne halice (show ("alice" : String) ≠ "" by decide)).2.2

/-- Transport for the gamemode scenario: the player query reports numeric
mode 2 (adventure); every other command succeeds. -/
def trGamemode : Transport :=
  ⟨fun s => if s = "/data get entity alice playerGameType"
    then .ok "Alice has the following entity data: 2" else .ok "done"⟩

/-- Transport whose every command fails. -/
def trFail : Transport := ⟨fun _ => .error "rcon closed"⟩

theorem C6_gamemode_snapshot_restore_witness :
    ∃ st : GamemodeState,
      (gamemodeCreate trGamemode " Survival " "alice").state = some st ∧
      st.previousMode = "adventure" ∧ st.player = "alice" ∧
      (gamemodeDelete trFail st).trace = [Cmd.gamemodeSet "adventure" "alice"] ∧
      (∀ e, trFail.send (render (Cmd.gamemodeSet "adventure" "alice")) = .error e →
        (gamemodeDelete trFail st).diags =
          [.warning "Failed to restore player gamemode" (.transport e)]) ∧
      (gamemodeDelete trFail st).diags.all (fun d => !d.isError) = true :=
  C6_gamemode_snapshot_restore trGamemode trFail " Survival " "adventure" "done"
    (by decide) (by decide) (by decide)
